import Mathlib

/-!
Verification of the metric computation and combination engine of a
model-analysis library, as a shallow embedding in Lean 4.

Conventions used throughout this development:

* Python floats that may carry NaN are embedded as Option ℚ, with none
  standing for NaN and some q for an ordinary numeric value q (the code
  never produces infinities on the paths modelled here, and exact rational
  arithmetic stands in for floating point everywhere a value is finite).
* numpy standard deviations are irrational in general, so the fields of the
  T-distribution summary are embedded as Option ℝ (none again standing for
  the NaN that numpy produces when the divisor n - ddof is not positive).
* fallible code (raise ValueError / TypeError) is embedded with
  Except String, the string being an abbreviation of the message raised.
-/

set_option maxHeartbeats 1000000

/-- Python float values that may be NaN: none is NaN, some q a numeric value. -/
abbrev PyFloat : Type := Option ℚ

/-- Modelled from the spec: types.ValueWithTDistribution is not among the
sources; the spec gives its shape as
sample_mean, sample_standard_deviation, degrees_of_freedom, unsampled_value. -/
structure ValueWithTDistribution where
  sample_mean : Option ℝ
  sample_standard_deviation : Option ℝ
  degrees_of_freedom : ℤ
  unsampled_value : PyFloat

/-- Embedding of np.mean over a list of (non-NaN) float values: sum divided
by length, in exact rational arithmetic. -/
def npMean (xs : List ℚ) : ℚ :=
  xs.sum / xs.length

/-- Embedding of np.std with ddof = 1: the square root of the sum of squared
deviations from the mean divided by (n - 1).  numpy emits NaN (none) when the
divisor n - ddof is not positive, which for ddof = 1 means n ≤ 1. -/
noncomputable def npStdDdof1 (xs : List ℚ) : Option ℝ :=
  if xs.length ≤ 1 then none
  else
    some (Real.sqrt
      ((((xs.map (fun x => (x - npMean xs) ^ 2)).sum : ℚ) : ℝ) /
        ((xs.length : ℝ) - 1)))

/-- Embedding of the scalar branch of
poisson_bootstrap._calculate_t_distribution (the list/ndarray branch applies
this same scalar computation elementwise and is not needed by the claims):
NaN replica values are discarded; when at least one numeric value remains the
result carries the numpy mean, the numpy ddof=1 standard deviation, degrees of
freedom n - 1 and the unsampled baseline value; when none remains every field
is the NaN sentinel and degrees of freedom is -1. -/
noncomputable def calculate_t_distribution (sampling_data_list : List PyFloat)
    (unsampled_data : PyFloat) : ValueWithTDistribution :=
  let valid := sampling_data_list.filterMap id
  if valid.length ≠ 0 then
    { sample_mean := some ((npMean valid : ℚ) : ℝ)
      sample_standard_deviation := npStdDdof1 valid
      degrees_of_freedom := (valid.length : ℤ) - 1
      unsampled_value := unsampled_data }
  else
    { sample_mean := none
      sample_standard_deviation := none
      degrees_of_freedom := -1
      unsampled_value := none }

/-- Specification-side mean, written from the words of the spec: the mean of
the remaining numeric replica values, as a real number. -/
noncomputable def spec_mean (xs : List ℚ) : ℝ :=
  ((xs.sum : ℚ) : ℝ) / (xs.length : ℝ)

/-- Specification-side sample standard deviation with divisor n - 1, written
from the words of the spec in the algebraically rearranged form
sqrt((Σ x² - n·mean²)/(n − 1)); NaN (none) when fewer than two values exist. -/
noncomputable def spec_sample_std (xs : List ℚ) : Option ℝ :=
  if 2 ≤ xs.length then
    some (Real.sqrt
      ((((xs.map (fun x => x ^ 2)).sum - (xs.length : ℚ) * (npMean xs) ^ 2 : ℚ) : ℝ) /
        ((xs.length : ℝ) - 1)))
  else none

/-- Sum of squared deviations from an arbitrary center, expanded. -/
theorem sum_sq_sub_eq (xs : List ℚ) (c : ℚ) :
    (xs.map (fun x => (x - c) ^ 2)).sum =
      (xs.map (fun x => x ^ 2)).sum - 2 * c * xs.sum + (xs.length : ℚ) * c ^ 2 := by
  induction xs with
  | nil => simp
  | cons a t ih =>
    simp only [List.map_cons, List.sum_cons, List.length_cons, ih]
    push_cast
    ring

/-- Sum of squared deviations from the mean equals Σ x² − n · mean². -/
theorem sum_sq_dev_mean (xs : List ℚ) (hx : xs ≠ []) :
    (xs.map (fun x => (x - npMean xs) ^ 2)).sum =
      (xs.map (fun x => x ^ 2)).sum - (xs.length : ℚ) * (npMean xs) ^ 2 := by
  have hn0 : xs.length ≠ 0 := fun h0 => hx (List.length_eq_zero.mp h0)
  have hn : (xs.length : ℚ) ≠ 0 := Nat.cast_ne_zero.mpr hn0
  rw [sum_sq_sub_eq]
  unfold npMean
  field_simp
  ring

/-- Agreement of the code-side and specification-side standard deviations. -/
theorem npStdDdof1_eq_spec (xs : List ℚ) (hx : xs ≠ []) :
    npStdDdof1 xs = spec_sample_std xs := by
  unfold npStdDdof1 spec_sample_std
  rcases le_or_lt xs.length 1 with h1 | h1
  · rw [if_pos h1, if_neg (by omega)]
  · rw [if_neg (by omega), if_pos (by omega)]
    rw [sum_sq_dev_mean xs hx]

/-- C1: for every slice whose bootstrap replicas yield at least one numeric
(non-NaN) value for a metric, the bootstrap merge discards the NaN replica
values and returns a ValueWithTDistribution whose sample_mean is the mean of
the remaining numeric replica values, whose sample_standard_deviation is the
standard deviation of those values with divisor n − 1, whose
degrees_of_freedom is (number of numeric replica values) − 1, and whose
unsampled_value is the baseline value from the unsampled computation. -/
theorem calculate_t_distribution_valid_spec (l : List PyFloat) (u : PyFloat)
    (h : l.filterMap id ≠ []) :
    calculate_t_distribution l u =
      { sample_mean := some (spec_mean (l.filterMap id))
        sample_standard_deviation := spec_sample_std (l.filterMap id)
        degrees_of_freedom := ((l.filterMap id).length : ℤ) - 1
        unsampled_value := u } := by
  have hlen : (l.filterMap id).length ≠ 0 := by
    simpa [List.length_eq_zero] using h
  unfold calculate_t_distribution
  rw [if_pos hlen, ValueWithTDistribution.mk.injEq]
  refine ⟨?_, npStdDdof1_eq_spec _ h, rfl, rfl⟩
  unfold npMean spec_mean
  push_cast
  ring_nf

/-- Witness for C1 at the concrete replica list [1, NaN, 3] with baseline 2. -/
theorem calculate_t_distribution_valid_spec_witness :
    ([some 1, none, some 3] : List PyFloat).filterMap id ≠ [] ∧
    calculate_t_distribution [some 1, none, some 3] (some 2) =
      { sample_mean := some (spec_mean (([some 1, none, some 3] : List PyFloat).filterMap id))
        sample_standard_deviation :=
          spec_sample_std (([some 1, none, some 3] : List PyFloat).filterMap id)
        degrees_of_freedom :=
          ((([some 1, none, some 3] : List PyFloat).filterMap id).length : ℤ) - 1
        unsampled_value := some 2 } :=
  ⟨by decide, calculate_t_distribution_valid_spec [some 1, none, some 3] (some 2) (by decide)⟩

/-- C2 counterexample: with every replica value NaN, the merged result does
NOT preserve the unsampled baseline value — the code returns the NaN sentinel
in the unsampled_value field as well, so the claim fails at the concrete input
replicas = [NaN, NaN], baseline = 5. -/
theorem calculate_t_distribution_all_nan_counterexample :
    (calculate_t_distribution [none, none] (some 5)).unsampled_value ≠ some 5 := by
  simp [calculate_t_distribution]

/-- C2 (amended): for every metric for which all bootstrap replica values are
NaN, the merged result has NaN sample mean and NaN sample standard deviation,
degrees_of_freedom = −1, and the unsampled_value field is also the NaN
sentinel (the baseline value is not preserved). -/
theorem calculate_t_distribution_all_nan (l : List PyFloat) (u : PyFloat)
    (h : l.filterMap id = []) :
    calculate_t_distribution l u =
      { sample_mean := none
        sample_standard_deviation := none
        degrees_of_freedom := -1
        unsampled_value := none } := by
  simp [calculate_t_distribution, h]

/-- Witness for the amended C2 at replicas = [NaN, NaN], baseline = 5. -/
theorem calculate_t_distribution_all_nan_witness :
    ([none, none] : List PyFloat).filterMap id = [] ∧
    calculate_t_distribution [none, none] (some 5) =
      { sample_mean := none
        sample_standard_deviation := none
        degrees_of_freedom := -1
        unsampled_value := none } :=
  ⟨by decide, calculate_t_distribution_all_nan [none, none] (some 5) (by decide)⟩

/-- Values in a merged per-slice metrics dict: either a plain (possibly NaN)
float passed through unchanged, or a T-distribution summary produced by the
bootstrap merge. -/
inductive MetricValue where
  | plain (v : PyFloat)
  | tdist (t : ValueWithTDistribution)

/-- Test for an unwrapped metric value. -/
def MetricValue.isPlain : MetricValue → Bool
  | .plain _ => true
  | .tdist _ => false

/-- Order-preserving deduplication, as iteration over the keys of a Python
dict built by insertion visits each key once at its first occurrence. -/
def firstDedup (l : List String) : List String :=
  l.foldl (fun acc a => if a ∈ acc then acc else acc ++ [a]) []

/-- Values collected for one metric name across the replica dicts, in replica
order, as built by the grouping loop of _MergeBootstrap.process. -/
def valuesFor (metrics : List (List (String × PyFloat))) (name : String) :
    List PyFloat :=
  metrics.filterMap (fun m => m.lookup name)

/-- Embedding of _MergeBootstrap.process for a single slice: with exactly one
replica dict it is yielded unchanged; otherwise values are grouped by metric
name, the sampled and unsampled key sets must agree (else ValueError), and
each group is merged by calculate_t_distribution against the unsampled
value. -/
noncomputable def mergeBootstrapSlice (metrics : List (List (String × PyFloat)))
    (unsampled : List (String × PyFloat)) :
    Except String (List (String × MetricValue)) :=
  if metrics.length = 1 then
    .ok ((metrics.headD []).map (fun kv => (kv.1, MetricValue.plain kv.2)))
  else
    let names := firstDedup (metrics.flatten.map Prod.fst)
    let unames := firstDedup (unsampled.map Prod.fst)
    if names.all (fun n => n ∈ unames) && unames.all (fun n => n ∈ names) then
      .ok (names.map (fun n =>
        (n, MetricValue.tdist
          (calculate_t_distribution (valuesFor metrics n)
            ((unsampled.lookup n).getD none)))))
    else
      .error "Keys of two metrics do not match"

/-- Embedding of the argument validation at the top of
ComputeWithConfidenceIntervals: a falsy num_bootstrap_samples (Python None or
0) is replaced by 1, after which any value below 1 raises ValueError. -/
def resolveNumBootstrapSamples (num_bootstrap_samples : Option ℤ) :
    Except String ℤ :=
  let n : ℤ :=
    match num_bootstrap_samples with
    | none => 1
    | some m => if m = 0 then 1 else m
  if n < 1 then .error "num_bootstrap_samples should be > 0" else .ok n

/-- Embedding of the per-slice dataflow of ComputeWithConfidenceIntervals:
the unsampled metrics are computed once; when the resolved replica count n
exceeds 1, replicas 0..n-1 are computed, grouped by slice and merged by
_MergeBootstrap against the unsampled results; otherwise the unsampled
per-slice dict is returned as-is (its values stay plain floats). -/
noncomputable def ComputeWithConfidenceIntervals
    (num_bootstrap_samples : Option ℤ)
    (unsampled : List (String × PyFloat))
    (sampled : ℕ → List (String × PyFloat)) :
    Except String (List (String × MetricValue)) :=
  match resolveNumBootstrapSamples num_bootstrap_samples with
  | .error e => .error e
  | .ok n =>
    if 1 < n then
      mergeBootstrapSlice ((List.range n.toNat).map sampled) unsampled
    else
      .ok (unsampled.map (fun kv => (kv.1, MetricValue.plain kv.2)))

/-- C3 counterexample: calling the bootstrap engine with
num_bootstrap_samples = 0 does not raise — 0 is falsy in Python, so it is
silently replaced by the default of 1 and the unsampled results are returned
without error, refuting the claim that every non-positive value is fatal. -/
theorem compute_with_ci_zero_counterexample :
    ComputeWithConfidenceIntervals (some 0) [] (fun _ => []) =
      Except.ok ([] : List (String × MetricValue)) := by
  rfl

/-- C3 (amended): calling the bootstrap engine with a negative
num_bootstrap_samples raises a fatal ValueError; num_bootstrap_samples = 0
(like None) is falsy and is instead treated as 1, skipping resampling without
an error. -/
theorem compute_with_ci_negative_error (m : ℤ) (hm : m < 0)
    (u : List (String × PyFloat)) (s : ℕ → List (String × PyFloat)) :
    ComputeWithConfidenceIntervals (some m) u s =
      Except.error "num_bootstrap_samples should be > 0" := by
  have hm0 : m ≠ 0 := by omega
  have hm1 : m < 1 := by omega
  unfold ComputeWithConfidenceIntervals resolveNumBootstrapSamples
  simp [hm0, hm1]

/-- Witness for the amended C3 at num_bootstrap_samples = −3. -/
theorem compute_with_ci_negative_error_witness :
    (-3 : ℤ) < 0 ∧
    ComputeWithConfidenceIntervals (some (-3)) [] (fun _ => []) =
      Except.error "num_bootstrap_samples should be > 0" :=
  ⟨by decide, compute_with_ci_negative_error (-3) (by decide) [] (fun _ => [])⟩

/-- C4: when num_bootstrap_samples is exactly 1, the bootstrap engine skips
resampling entirely and returns the unsampled per-slice metric values as-is,
every returned value being a plain float with no ValueWithTDistribution
wrapping. -/
theorem compute_with_ci_one_returns_unsampled
    (u : List (String × PyFloat)) (s : ℕ → List (String × PyFloat)) :
    ComputeWithConfidenceIntervals (some 1) u s =
      Except.ok (u.map (fun kv => (kv.1, MetricValue.plain kv.2))) ∧
    (u.map (fun kv => (kv.1, MetricValue.plain kv.2))).all
      (fun kv => kv.2.isPlain) = true := by
  constructor
  · rfl
  · induction u with
    | nil => rfl
    | cons kv t ih => simpa [MetricValue.isPlain] using ih

/-- Embedding of metric_types.SubKey as used by the sub-key fan-out: exactly
one of class_id, k or top_k is set on every SubKey object the fan-out
builds. -/
inductive SubKey where
  | class_id (v : ℤ)
  | k (v : ℕ)
  | top_k (v : ℕ)
deriving DecidableEq

/-- Embedding of the binarization options message: the three repeated fields
read by the sub-key fan-out. -/
structure BinarizationOptions where
  class_ids : List ℤ
  k_list : List ℕ
  top_k_list : List ℕ
deriving DecidableEq

/-- Embedding of the aggregation options message: the flags read by the
computation-graph builder (class_weights are not needed by the claims). -/
structure AggregationOptions where
  micro_average : Bool
  macro_average : Bool
  weighted_macro_average : Bool
deriving DecidableEq

/-- Embedding of config.MetricsSpec, restricted to the fields the claims
read. binarize is a proto message field, so HasField distinguishes an unset
message from a set-but-empty one: Option models that presence bit. aggregate
is always readable (an unset proto message reads as all-default flags). -/
structure MetricsSpec where
  binarize : Option BinarizationOptions
  aggregate : AggregationOptions
deriving DecidableEq

/-- Embedding of metric_specs._create_sub_keys, following the Python text:
sub_keys stays None without a binarize field; otherwise a list is built by
appending one SubKey per class id, then per k, then per top-k (each append
guarded by a non-emptiness test on the corresponding repeated field), and a
trailing Python None entry is appended when micro averaging is requested. -/
def create_sub_keys (spec : MetricsSpec) : Option (List (Option SubKey)) :=
  match spec.binarize with
  | none => none
  | some b =>
    let s1 : List (Option SubKey) :=
      if b.class_ids.isEmpty then []
      else [] ++ b.class_ids.map (fun v => some (SubKey.class_id v))
    let s2 : List (Option SubKey) :=
      if b.k_list.isEmpty then s1
      else s1 ++ b.k_list.map (fun v => some (SubKey.k v))
    let s3 : List (Option SubKey) :=
      if b.top_k_list.isEmpty then s2
      else s2 ++ b.top_k_list.map (fun v => some (SubKey.top_k v))
    some (if spec.aggregate.micro_average then s3 ++ [none] else s3)

/-- C7: for every metric spec with a binarize field, the sub-key fan-out
produces exactly one SubKey per listed class id, then one per k, then one per
top-k value, in that order, with one extra Python-None entry appended exactly
when micro averaging is also requested; with no binarize field the result is
None rather than a list. -/
theorem create_sub_keys_spec (spec : MetricsSpec) :
    (spec.binarize = none → create_sub_keys spec = none) ∧
    (∀ b, spec.binarize = some b →
      create_sub_keys spec = some
        (b.class_ids.map (fun v => some (SubKey.class_id v)) ++
         b.k_list.map (fun v => some (SubKey.k v)) ++
         b.top_k_list.map (fun v => some (SubKey.top_k v)) ++
         (if spec.aggregate.micro_average then [none] else []))) := by
  constructor
  · intro h
    unfold create_sub_keys
    rw [h]
  · intro b hb
    rcases b with ⟨ci, kl, tkl⟩
    simp only [create_sub_keys, hb]
    cases hm : spec.aggregate.micro_average <;>
      cases ci <;> cases kl <;> cases tkl <;> simp

/-- Witness for C7 at a spec binarizing class id 7, k 2 and top-k 3 with
micro averaging on. -/
theorem create_sub_keys_spec_witness :
    create_sub_keys
      { binarize := some { class_ids := [7], k_list := [2], top_k_list := [3] }
        aggregate := { micro_average := true, macro_average := false,
                       weighted_macro_average := false } } =
      some [some (SubKey.class_id 7), some (SubKey.k 2), some (SubKey.top_k 3), none] := by
  simpa using
    (create_sub_keys_spec
      { binarize := some { class_ids := [7], k_list := [2], top_k_list := [3] }
        aggregate := { micro_average := true, macro_average := false,
                       weighted_macro_average := false } }).2
      { class_ids := [7], k_list := [2], top_k_list := [3] } rfl

/-- Embedding of the macro-averaging validation in
metric_specs.to_computations: for a spec requesting macro or weighted-macro
averaging, the sub keys are computed and a ValueError is raised when they are
None (no binarize field); otherwise the spec passes validation. -/
def validate_macro_average_settings (spec : MetricsSpec) : Except String Unit :=
  if spec.aggregate.macro_average || spec.aggregate.weighted_macro_average then
    match create_sub_keys spec with
    | none => .error "binarize settings are required when aggregate.macro_average or aggregate.weighted_macro_average is used"
    | some _ => .ok ()
  else .ok ()

/-- C6: building the computation graph from a metric spec that requests macro
or weighted-macro averaging without any binarization settings raises a fatal
configuration error, for every such spec. -/
theorem validate_macro_average_settings_error (spec : MetricsSpec)
    (hagg : spec.aggregate.macro_average = true ∨
      spec.aggregate.weighted_macro_average = true)
    (hbin : spec.binarize = none) :
    validate_macro_average_settings spec =
      .error "binarize settings are required when aggregate.macro_average or aggregate.weighted_macro_average is used" := by
  have hsub : create_sub_keys spec = none := by
    unfold create_sub_keys
    rw [hbin]
  have hcond : (spec.aggregate.macro_average ||
      spec.aggregate.weighted_macro_average) = true := by
    rcases hagg with h | h <;> simp [h]
  unfold validate_macro_average_settings
  rw [hcond, if_pos rfl, hsub]

/-- Witness for C6 at a spec with macro averaging on and no binarize field. -/
theorem validate_macro_average_settings_error_witness :
    (({ binarize := none
        aggregate := { micro_average := false, macro_average := true,
                       weighted_macro_average := false } } : MetricsSpec).aggregate.macro_average = true ∨
     ({ binarize := none
        aggregate := { micro_average := false, macro_average := true,
                       weighted_macro_average := false } } : MetricsSpec).aggregate.weighted_macro_average = true) ∧
    validate_macro_average_settings
      { binarize := none
        aggregate := { micro_average := false, macro_average := true,
                       weighted_macro_average := false } } =
      .error "binarize settings are required when aggregate.macro_average or aggregate.weighted_macro_average is used" :=
  ⟨Or.inl rfl,
    validate_macro_average_settings_error
      { binarize := none
        aggregate := { micro_average := false, macro_average := true,
                       weighted_macro_average := false } }
      (Or.inl rfl) rfl⟩

/-- Message of the ValueError raised on a key collision between evaluator
output dictionaries (abbreviated). -/
def keyCollisionMsg : String :=
  "Dictionaries generated by different evaluators should have different keys"

/-- Embedding of _CombineEvaluationDictionariesFn._merge: when the key sets
of the accumulator and the incoming dict intersect a ValueError is raised,
otherwise the entries of the incoming dict are added to the accumulator
(dict update of disjoint dicts = concatenation). -/
def merge_evaluation_dicts {V : Type} (accumulator output_dict : List (String × V)) :
    Except String (List (String × V)) :=
  if (accumulator.map Prod.fst).inter (output_dict.map Prod.fst) ≠ [] then
    .error keyCollisionMsg
  else
    .ok (accumulator ++ output_dict)

/-- Embedding of _CombineEvaluationDictionariesFn.add_input: merges the
incoming output dict into the accumulator (the isinstance dict check of the
Python code is made unreachable here by typing the input as a dict). -/
def combine_evaluation_dicts_add_input {V : Type}
    (accumulator output_dict : List (String × V)) :
    Except String (List (String × V)) :=
  merge_evaluation_dicts accumulator output_dict

/-- Loop of _CombineEvaluationDictionariesFn.merge_accumulators: merges each
accumulator in turn into a running result. -/
def mergeEvaluationDictsFold {V : Type} (acc : List (String × V)) :
    List (List (String × V)) → Except String (List (String × V))
  | [] => .ok acc
  | d :: rest =>
    match merge_evaluation_dicts acc d with
    | .error e => .error e
    | .ok acc2 => mergeEvaluationDictsFold acc2 rest

/-- Embedding of _CombineEvaluationDictionariesFn.merge_accumulators: folds
the merge over the accumulator list starting from the fresh empty dict. -/
def combine_evaluation_dicts_merge_accumulators {V : Type}
    (accumulators : List (List (String × V))) :
    Except String (List (String × V)) :=
  mergeEvaluationDictsFold [] accumulators

/-- Emptiness of a list intersection spelled out by membership. -/
theorem inter_eq_nil_iff {l₁ l₂ : List String} :
    l₁.inter l₂ = [] ↔ ∀ a ∈ l₁, a ∉ l₂ := by
  constructor
  · intro h a ha hb
    have : a ∈ l₁.inter l₂ := List.mem_inter_iff.mpr ⟨ha, hb⟩
    rw [h] at this
    exact List.not_mem_nil a this
  · intro h
    rw [List.eq_nil_iff_forall_not_mem]
    intro a ha
    rcases List.mem_inter_iff.mp ha with ⟨h₁, h₂⟩
    exact h a h₁ h₂

/-- Merging from an accumulator that is key-disjoint from every pairwise
key-disjoint dict in the list succeeds and concatenates everything. -/
theorem mergeEvaluationDictsFold_ok {V : Type}
    (ds : List (List (String × V))) (acc : List (String × V))
    (hacc : ∀ d ∈ ds, (acc.map Prod.fst).inter (d.map Prod.fst) = [])
    (hpw : ds.Pairwise
      (fun d₁ d₂ => (d₁.map Prod.fst).inter (d₂.map Prod.fst) = [])) :
    mergeEvaluationDictsFold acc ds = .ok (acc ++ ds.flatten) := by
  induction ds generalizing acc with
  | nil => simp [mergeEvaluationDictsFold]
  | cons d t ih =>
    have hd : (acc.map Prod.fst).inter (d.map Prod.fst) = [] :=
      hacc d (List.mem_cons_self d t)
    rw [List.pairwise_cons] at hpw
    have step : merge_evaluation_dicts acc d = .ok (acc ++ d) := by
      unfold merge_evaluation_dicts
      rw [if_neg (by simpa using hd)]
    have hacc2 : ∀ d2 ∈ t,
        (((acc ++ d).map Prod.fst).inter (d2.map Prod.fst)) = [] := by
      intro d2 hd2
      rw [inter_eq_nil_iff]
      intro a ha hb
      rw [List.map_append, List.mem_append] at ha
      rcases ha with ha | ha
      · exact (inter_eq_nil_iff.mp (hacc d2 (List.mem_cons_of_mem d hd2))) a ha hb
      · exact (inter_eq_nil_iff.mp (hpw.1 d2 hd2)) a ha hb
    rw [mergeEvaluationDictsFold, step]
    show mergeEvaluationDictsFold (acc ++ d) t = Except.ok (acc ++ (d :: t).flatten)
    rw [ih (acc ++ d) hacc2 hpw.2]
    simp

/-- Merging errors out whenever some dict in the list shares a key with the
running accumulator. -/
theorem mergeEvaluationDictsFold_error_of_acc {V : Type}
    (ds : List (List (String × V))) (acc d₀ : List (String × V))
    (hmem : d₀ ∈ ds)
    (hconf : (acc.map Prod.fst).inter (d₀.map Prod.fst) ≠ []) :
    mergeEvaluationDictsFold acc ds = .error keyCollisionMsg := by
  induction ds generalizing acc with
  | nil => exact absurd hmem (List.not_mem_nil d₀)
  | cons d t ih =>
    by_cases hd : (acc.map Prod.fst).inter (d.map Prod.fst) = []
    · have step : merge_evaluation_dicts acc d = .ok (acc ++ d) := by
        unfold merge_evaluation_dicts
        rw [if_neg (by simpa using hd)]
      rcases List.mem_cons.mp hmem with rfl | hmem2
      · exact absurd hd hconf
      · have hconf2 : (((acc ++ d).map Prod.fst).inter (d₀.map Prod.fst)) ≠ [] := by
          intro hnil
          apply hconf
          rw [inter_eq_nil_iff] at hnil ⊢
          intro a ha hb
          exact hnil a (by rw [List.map_append, List.mem_append]; exact Or.inl ha) hb
        rw [mergeEvaluationDictsFold, step]
        exact ih (acc ++ d) hmem2 hconf2
    · have step : merge_evaluation_dicts acc d = .error keyCollisionMsg := by
        unfold merge_evaluation_dicts
        rw [if_pos (by simpa using hd)]
      rw [mergeEvaluationDictsFold, step]

/-- Merging errors out whenever the dict list is not pairwise key-disjoint. -/
theorem mergeEvaluationDictsFold_error {V : Type}
    (ds : List (List (String × V))) (acc : List (String × V))
    (hnp : ¬ ds.Pairwise
      (fun d₁ d₂ => (d₁.map Prod.fst).inter (d₂.map Prod.fst) = [])) :
    mergeEvaluationDictsFold acc ds = .error keyCollisionMsg := by
  induction ds generalizing acc with
  | nil => exact absurd List.Pairwise.nil hnp
  | cons d t ih =>
    by_cases hd : (acc.map Prod.fst).inter (d.map Prod.fst) = []
    · have step : merge_evaluation_dicts acc d = .ok (acc ++ d) := by
        unfold merge_evaluation_dicts
        rw [if_neg (by simpa using hd)]
      rw [mergeEvaluationDictsFold, step]
      by_cases hpt : t.Pairwise
        (fun d₁ d₂ => (d₁.map Prod.fst).inter (d₂.map Prod.fst) = [])
      · have hex : ∃ d₀ ∈ t, (d.map Prod.fst).inter (d₀.map Prod.fst) ≠ [] := by
          by_contra hall
          push_neg at hall
          exact hnp (List.pairwise_cons.mpr ⟨hall, hpt⟩)
        rcases hex with ⟨d₀, hd₀mem, hd₀conf⟩
        apply mergeEvaluationDictsFold_error_of_acc t (acc ++ d) d₀ hd₀mem
        intro hnil
        apply hd₀conf
        rw [inter_eq_nil_iff] at hnil ⊢
        intro a ha hb
        exact hnil a (by rw [List.map_append, List.mem_append]; exact Or.inr ha) hb
      · exact ih (acc ++ d) hpt
    · have step : merge_evaluation_dicts acc d = .error keyCollisionMsg := by
        unfold merge_evaluation_dicts
        rw [if_pos (by simpa using hd)]
      rw [mergeEvaluationDictsFold, step]

/-- C8: when combining the per-slice output dictionaries of multiple
evaluators within one output category, a key appearing in more than one
dictionary raises a fatal error, and pairwise-disjoint key sets merge to
exactly the union of the dictionaries — for every add_input and every
merge_accumulators of the combining CombineFn. -/
theorem combine_evaluation_dictionaries_spec {V : Type} :
    (∀ acc out : List (String × V),
      (acc.map Prod.fst).inter (out.map Prod.fst) = [] →
        combine_evaluation_dicts_add_input acc out = .ok (acc ++ out)) ∧
    (∀ acc out : List (String × V),
      (acc.map Prod.fst).inter (out.map Prod.fst) ≠ [] →
        combine_evaluation_dicts_add_input acc out = .error keyCollisionMsg) ∧
    (∀ ds : List (List (String × V)),
      ds.Pairwise (fun d₁ d₂ => (d₁.map Prod.fst).inter (d₂.map Prod.fst) = []) →
        combine_evaluation_dicts_merge_accumulators ds = .ok ds.flatten) ∧
    (∀ ds : List (List (String × V)),
      ¬ ds.Pairwise (fun d₁ d₂ => (d₁.map Prod.fst).inter (d₂.map Prod.fst) = []) →
        combine_evaluation_dicts_merge_accumulators ds = .error keyCollisionMsg) := by
  refine ⟨?_, ?_, ?_, ?_⟩
  · intro acc out h
    unfold combine_evaluation_dicts_add_input merge_evaluation_dicts
    rw [if_neg (by simpa using h)]
  · intro acc out h
    unfold combine_evaluation_dicts_add_input merge_evaluation_dicts
    rw [if_pos (by simpa using h)]
  · intro ds hpw
    unfold combine_evaluation_dicts_merge_accumulators
    rw [mergeEvaluationDictsFold_ok ds [] (fun d _ => rfl) hpw]
    simp
  · intro ds hnp
    exact mergeEvaluationDictsFold_error ds [] hnp

/-- Witness for C8 on the concrete disjoint dicts [a ↦ 1] and [b ↦ 2] and on
the colliding pair [a ↦ 1], [a ↦ 2]. -/
theorem combine_evaluation_dictionaries_spec_witness :
    (([("a", (1 : ℕ))].map Prod.fst).inter ([("b", 2)].map Prod.fst) = [] ∧
      combine_evaluation_dicts_add_input [("a", (1 : ℕ))] [("b", 2)] =
        .ok ([("a", 1)] ++ [("b", 2)])) ∧
    (([("a", (1 : ℕ))].map Prod.fst).inter ([("a", 2)].map Prod.fst) ≠ [] ∧
      combine_evaluation_dicts_add_input [("a", (1 : ℕ))] [("a", 2)] =
        .error keyCollisionMsg) :=
  ⟨⟨by decide, combine_evaluation_dictionaries_spec.1 [("a", 1)] [("b", 2)] (by decide)⟩,
   ⟨by decide, combine_evaluation_dictionaries_spec.2.1 [("a", 1)] [("a", 2)] (by decide)⟩⟩

/-- Modelled from the spec: metric_types.MetricKey is not among the sources;
the spec gives it as name, model_name, output_name, sub_key, is-diff flag.
Only the fields the combiners read are kept. -/
structure MetricKeyE where
  name : String
  model_name : String
  output_name : String
deriving DecidableEq

/-- Python values an example weight may hold on the paths the combiners
handle: the missing value None, a scalar float, or a dict keyed by model or
output name. -/
inductive PyVal where
  | pynone
  | scalar (x : ℚ)
  | dict (entries : List (String × PyVal))

/-- Python truthiness of the values above: None is falsy, a number is falsy
exactly when zero, a dict exactly when empty. -/
def PyVal.truthy : PyVal → Bool
  | .pynone => false
  | .scalar x => decide (x ≠ 0)
  | .dict entries => !entries.isEmpty

/-- Test for a Python dict value (the isinstance(example_weight, dict)
checks of add_input). -/
def PyVal.isDict : PyVal → Bool
  | .dict _ => true
  | _ => false

/-- Modelled from the spec: util.get_by_keys is not among the sources; the
spec describes example weights as flat mappings from model/output name to
values, so the helper is modelled as a dict lookup returning the value under
the key when present and none otherwise (the optional=True call), with the
caller supplying a default for the defaulted call. -/
def get_by_keys_opt (entries : List (String × PyVal)) (key : String) :
    Option PyVal :=
  entries.lookup key

/-- Weight-resolution steps of _WeightedExampleCountCombiner.add_input: a
falsy weight is replaced by 1.0; a dict weight is resolved through the
model name (optional lookup, keeping the dict when absent) and then through
the output name (lookup defaulting to 1.0). -/
def weighted_example_count_resolve (key : MetricKeyE) (example_weight : PyVal) :
    PyVal :=
  let w0 := if example_weight.truthy then example_weight else .scalar 1
  let w1 :=
    match w0 with
    | .dict entries =>
      if key.model_name ≠ "" then
        match get_by_keys_opt entries key.model_name with
        | some value => value
        | none => .dict entries
      else .dict entries
    | w => w
  match w1 with
  | .dict entries =>
    if key.output_name ≠ "" then (get_by_keys_opt entries key.output_name).getD (.scalar 1)
    else .dict entries
  | w => w

/-- Message of the ValueError raised on a dict-valued weight (abbreviated). -/
def dictWeightMsg : String :=
  "weighted_example_count cannot be calculated on a dict"

/-- Embedding of _WeightedExampleCountCombiner.add_input: resolves the
element weight as above, raises ValueError when a dict remains, and otherwise
adds np.sum of the scalar (the scalar itself) to the accumulator; a weight
that is still Python None cannot be summed and is a TypeError. -/
def weighted_example_count_add_input (key : MetricKeyE) (accumulator : ℚ)
    (example_weight : PyVal) : Except String ℚ :=
  match weighted_example_count_resolve key example_weight with
  | .dict _ => .error dictWeightMsg
  | .scalar x => .ok (accumulator + x)
  | .pynone => .error "unsupported operand type for sum: NoneType"

/-- Embedding of _WeightedExampleCountCombiner.merge_accumulators: sums the
accumulators into a fresh 0.0. -/
def weighted_example_count_merge_accumulators (accumulators : List ℚ) : ℚ :=
  accumulators.foldl (fun result accumulator => result + accumulator) 0

/-- Embedding of _WeightedExampleCountCombiner.extract_output: the dict
mapping the combiner key to the accumulated count. -/
def weighted_example_count_extract_output (key : MetricKeyE)
    (accumulator : ℚ) : List (MetricKeyE × ℚ) :=
  [(key, accumulator)]

/-- C10: in the weighted-example-count combiner, an example whose
example_weight is missing (None) or falsy (such as a scalar 0.0) is counted
with a substituted weight of 1.0, increasing the count by exactly 1.0; and a
weight that is still a dict after model-name and output-name resolution
raises a fatal error instead. -/
theorem weighted_example_count_add_input_spec (key : MetricKeyE) (acc : ℚ) :
    weighted_example_count_add_input key acc PyVal.pynone = .ok (acc + 1) ∧
    weighted_example_count_add_input key acc (PyVal.scalar 0) = .ok (acc + 1) ∧
    (∀ w : PyVal, (weighted_example_count_resolve key w).isDict = true →
      weighted_example_count_add_input key acc w = .error dictWeightMsg) := by
  refine ⟨rfl, ?_, ?_⟩
  · have ht : (PyVal.scalar 0).truthy = false := by
      simp [PyVal.truthy]
    unfold weighted_example_count_add_input weighted_example_count_resolve
    rw [ht]
    rfl
  · intro w hw
    unfold weighted_example_count_add_input
    rcases hr : weighted_example_count_resolve key w with _ | x | entries
    · rw [hr] at hw
      exact absurd hw (by simp [PyVal.isDict])
    · rw [hr] at hw
      exact absurd hw (by simp [PyVal.isDict])
    · rfl

/-- Witness for C10 at the empty key and a weight dict that stays a dict
after resolution. -/
theorem weighted_example_count_add_input_spec_witness :
    (weighted_example_count_resolve { name := "weighted_example_count", model_name := "", output_name := "" }
      (PyVal.dict [("a", PyVal.scalar 2)])).isDict = true ∧
    weighted_example_count_add_input { name := "weighted_example_count", model_name := "", output_name := "" }
      0 (PyVal.dict [("a", PyVal.scalar 2)]) = .error dictWeightMsg :=
  ⟨rfl,
    (weighted_example_count_add_input_spec
      { name := "weighted_example_count", model_name := "", output_name := "" } 0).2.2
      (PyVal.dict [("a", PyVal.scalar 2)]) rfl⟩

/-- Per-example data the min-label-position combiner reads from each element
of a query group: the (possibly missing) label array and the example weight,
as metric_util.to_label_prediction_example_weight yields them with
flatten=False and allow_none=True. -/
structure QueryElement where
  label : Option (List ℚ)
  example_weight : ℚ
deriving DecidableEq

/-- Positivity test the combiner applies to an element: the label is present
and np.sum(label) > 0. -/
def labelPositive (e : QueryElement) : Bool :=
  match e.label with
  | none => false
  | some l => decide (0 < l.sum)

/-- Message of the ValueError raised on mismatched weights inside one query
group (abbreviated). -/
def weightMismatchMsg : String :=
  "all example weights for the same query value must use the same value"

/-- Embedding of the element loop of _MinLabelPositionCombiner.add_input: it
walks the query group in order carrying the 0-based index and the weight seen
so far; each element first has its weight recorded or checked against the
recorded one (ValueError on mismatch), then the loop stops at the first
positively labeled element, returning its 1-indexed position. -/
def scanQuery : List QueryElement → ℕ → Option ℚ →
    Except String (Option ℕ × Option ℚ)
  | [], _, example_weight => .ok (none, example_weight)
  | e :: rest, i, example_weight =>
    match example_weight with
    | none =>
      if labelPositive e then .ok (some (i + 1), some e.example_weight)
      else scanQuery rest (i + 1) (some e.example_weight)
    | some w =>
      if w ≠ e.example_weight then .error weightMismatchMsg
      else if labelPositive e then .ok (some (i + 1), some w)
      else scanQuery rest (i + 1) (some w)

/-- Accumulator of _MinLabelPositionCombiner: running sum of per-query
minimum label positions and running sum of per-query example weights. -/
structure MinLabelPositionAccumulator where
  total_min_position : ℚ
  total_weighted_examples : ℚ
deriving DecidableEq

/-- Embedding of _MinLabelPositionCombiner.add_input: scans the query group;
a missing weight defaults to 1.0; when a positive label was found its
1-indexed position is added to total_min_position (note: the position is NOT
multiplied by the example weight) and the query weight to
total_weighted_examples; otherwise the accumulator is unchanged. -/
def min_label_position_add_input (accumulator : MinLabelPositionAccumulator)
    (elements : List QueryElement) :
    Except String MinLabelPositionAccumulator :=
  match scanQuery elements 0 none with
  | .error e => .error e
  | .ok (min_label_pos, example_weight) =>
    let w := example_weight.getD 1
    match min_label_pos with
    | some p =>
      .ok { total_min_position := accumulator.total_min_position + (p : ℚ)
            total_weighted_examples := accumulator.total_weighted_examples + w }
    | none => .ok accumulator

/-- Embedding of _MinLabelPositionCombiner.merge_accumulators: componentwise
sums into a fresh zero accumulator. -/
def min_label_position_merge_accumulators
    (accumulators : List MinLabelPositionAccumulator) :
    MinLabelPositionAccumulator :=
  accumulators.foldl
    (fun result a =>
      { total_min_position := result.total_min_position + a.total_min_position
        total_weighted_examples :=
          result.total_weighted_examples + a.total_weighted_examples })
    { total_min_position := 0, total_weighted_examples := 0 }

/-- Embedding of _MinLabelPositionCombiner.extract_output: the ratio of the
two accumulator components when the weight total is positive, NaN (none)
otherwise. -/
def min_label_position_extract_output
    (accumulator : MinLabelPositionAccumulator) : PyFloat :=
  if 0 < accumulator.total_weighted_examples then
    some (accumulator.total_min_position / accumulator.total_weighted_examples)
  else none

/-- Per-query scalar of the claim: the 1-indexed position of the first
positively labeled element of the query group, when one exists. -/
def query_min_label_pos (q : List QueryElement) : Option ℕ :=
  (q.findIdx? labelPositive).map (fun i => i + 1)

/-- Weight of a query group (the claims assume all elements share it). -/
def query_weight (q : List QueryElement) : ℚ :=
  match q with
  | [] => 1
  | e :: _ => e.example_weight

/-- Statement of the claim, written from its words: the weighted average —
with each query weighted by its example weight — of the per-query minimum
positive-label positions over all queries having at least one labeled
example, NaN when no query does. -/
def claimed_min_label_position (queries : List (List QueryElement)) : PyFloat :=
  let labeled := queries.filterMap
    (fun q => (query_min_label_pos q).map (fun p => ((p : ℚ), query_weight q)))
  if labeled.isEmpty then none
  else some (((labeled.map (fun pw => pw.2 * pw.1)).sum) /
    ((labeled.map (fun pw => pw.2)).sum))

/-- C5 evaluation at the failing input: for a single query with one
positively labeled element of example weight 2, the combiner accumulates
numerator 1 (the position, unweighted) and denominator 2 (the weight), so the
extracted value is 1/2, while the weighted average the claim and the metric
docstring describe is (2·1)/2 = 1. The code divides a weight-free numerator
by a weight sum, contradicting its own docstring. -/
theorem min_label_position_weighting_bug :
    min_label_position_add_input
      { total_min_position := 0, total_weighted_examples := 0 }
      [{ label := some [1], example_weight := 2 }] =
      .ok { total_min_position := 1, total_weighted_examples := 2 } ∧
    min_label_position_extract_output
      { total_min_position := 1, total_weighted_examples := 2 } = some (1 / 2) ∧
    claimed_min_label_position [[{ label := some [1], example_weight := 2 }]] =
      some 1 ∧
    ((1 : ℚ) / 2) ≠ 1 := by
  have h1 : scanQuery [{ label := some [1], example_weight := 2 }] 0 none =
      .ok (some 1, some 2) := by
    unfold scanQuery labelPositive
    norm_num
  refine ⟨?_, ?_, ?_, by norm_num⟩
  · unfold min_label_position_add_input
    rw [h1]
    norm_num
  · unfold min_label_position_extract_output
    norm_num
  · have h2 : query_min_label_pos [{ label := some [1], example_weight := 2 }] =
        some 1 := by
      unfold query_min_label_pos labelPositive
      norm_num [List.findIdx?]
    unfold claimed_min_label_position
    rw [List.filterMap_cons]
    rw [h2]
    norm_num [query_weight]

/-- Sum characterization of a left fold of additions over the rationals. -/
theorem foldl_add_eq (l : List ℚ) (a : ℚ) :
    l.foldl (fun r x => r + x) a = a + l.sum := by
  induction l generalizing a with
  | nil => simp
  | cons x t ih => simp [ih, add_assoc]

/-- Closed form of the weighted-example-count merge: the plain sum. -/
theorem weighted_example_count_merge_eq_sum (l : List ℚ) :
    weighted_example_count_merge_accumulators l = l.sum := by
  unfold weighted_example_count_merge_accumulators
  rw [foldl_add_eq]
  simp

/-- Componentwise closed form of the min-label-position fold. -/
theorem mlp_foldl_eq (l : List MinLabelPositionAccumulator)
    (init : MinLabelPositionAccumulator) :
    l.foldl (fun result a =>
      { total_min_position := result.total_min_position + a.total_min_position
        total_weighted_examples :=
          result.total_weighted_examples + a.total_weighted_examples }) init =
      { total_min_position :=
          init.total_min_position + (l.map (fun a => a.total_min_position)).sum
        total_weighted_examples :=
          init.total_weighted_examples +
            (l.map (fun a => a.total_weighted_examples)).sum } := by
  induction l generalizing init with
  | nil => simp
  | cons x t ih => simp [ih, add_assoc]

/-- Closed form of the min-label-position merge: componentwise sums. -/
theorem min_label_position_merge_eq_sum (l : List MinLabelPositionAccumulator) :
    min_label_position_merge_accumulators l =
      { total_min_position := (l.map (fun a => a.total_min_position)).sum
        total_weighted_examples :=
          (l.map (fun a => a.total_weighted_examples)).sum } := by
  unfold min_label_position_merge_accumulators
  rw [mlp_foldl_eq]
  simp

/-- C9: merge_accumulators of the weighted-example-count and
min-label-position combiners is commutative and associative — permuting an
accumulator list or regrouping it (merging per-group merges) yields the same
accumulator, the components being plain sums, so any partition of the merged
work into groups yields the same extracted output in exact arithmetic. -/
theorem merge_accumulators_comm_assoc :
    (∀ l₁ l₂ : List ℚ, l₁.Perm l₂ →
      weighted_example_count_merge_accumulators l₁ =
        weighted_example_count_merge_accumulators l₂) ∧
    (∀ gs : List (List ℚ),
      weighted_example_count_merge_accumulators
        (gs.map weighted_example_count_merge_accumulators) =
        weighted_example_count_merge_accumulators gs.flatten) ∧
    (∀ l₁ l₂ : List MinLabelPositionAccumulator, l₁.Perm l₂ →
      min_label_position_merge_accumulators l₁ =
        min_label_position_merge_accumulators l₂) ∧
    (∀ gs : List (List MinLabelPositionAccumulator),
      min_label_position_merge_accumulators
        (gs.map min_label_position_merge_accumulators) =
        min_label_position_merge_accumulators gs.flatten) ∧
    (∀ (key : MetricKeyE) (gs₁ gs₂ : List (List ℚ)), gs₁.flatten.Perm gs₂.flatten →
      weighted_example_count_extract_output key
        (weighted_example_count_merge_accumulators
          (gs₁.map weighted_example_count_merge_accumulators)) =
      weighted_example_count_extract_output key
        (weighted_example_count_merge_accumulators
          (gs₂.map weighted_example_count_merge_accumulators))) ∧
    (∀ gs₁ gs₂ : List (List MinLabelPositionAccumulator),
      gs₁.flatten.Perm gs₂.flatten →
      min_label_position_extract_output
        (min_label_position_merge_accumulators
          (gs₁.map min_label_position_merge_accumulators)) =
      min_label_position_extract_output
        (min_label_position_merge_accumulators
          (gs₂.map min_label_position_merge_accumulators))) := by
  have hwec_group : ∀ gs : List (List ℚ),
      weighted_example_count_merge_accumulators
        (gs.map weighted_example_count_merge_accumulators) =
        weighted_example_count_merge_accumulators gs.flatten := by
    intro gs
    rw [weighted_example_count_merge_eq_sum, weighted_example_count_merge_eq_sum]
    rw [List.sum_flatten]
    congr 1
    exact List.map_congr_left (fun g _ => weighted_example_count_merge_eq_sum g)
  have hmlp_group : ∀ gs : List (List MinLabelPositionAccumulator),
      min_label_position_merge_accumulators
        (gs.map min_label_position_merge_accumulators) =
        min_label_position_merge_accumulators gs.flatten := by
    intro gs
    rw [min_label_position_merge_eq_sum, min_label_position_merge_eq_sum]
    have e1 : (gs.map min_label_position_merge_accumulators).map
        (fun a => a.total_min_position) =
        gs.map (fun g => (g.map (fun a => a.total_min_position)).sum) := by
      rw [List.map_map]
      exact List.map_congr_left (fun g _ => by
        rw [Function.comp_apply, min_label_position_merge_eq_sum g])
    have e2 : (gs.map min_label_position_merge_accumulators).map
        (fun a => a.total_weighted_examples) =
        gs.map (fun g => (g.map (fun a => a.total_weighted_examples)).sum) := by
      rw [List.map_map]
      exact List.map_congr_left (fun g _ => by
        rw [Function.comp_apply, min_label_position_merge_eq_sum g])
    rw [e1, e2]
    have key : ∀ (f : MinLabelPositionAccumulator → ℚ)
        (hs : List (List MinLabelPositionAccumulator)),
        (hs.map (fun g => (g.map f).sum)).sum = (hs.flatten.map f).sum := by
      intro f hs
      induction hs with
      | nil => simp
      | cons g t ih => simp [ih]
    congr 1
    · exact key (fun a => a.total_min_position) gs
    · exact key (fun a => a.total_weighted_examples) gs
  have hwec_perm : ∀ l₁ l₂ : List ℚ, l₁.Perm l₂ →
      weighted_example_count_merge_accumulators l₁ =
        weighted_example_count_merge_accumulators l₂ := by
    intro l₁ l₂ hp
    rw [weighted_example_count_merge_eq_sum, weighted_example_count_merge_eq_sum]
    exact hp.sum_eq
  have hmlp_perm : ∀ l₁ l₂ : List MinLabelPositionAccumulator, l₁.Perm l₂ →
      min_label_position_merge_accumulators l₁ =
        min_label_position_merge_accumulators l₂ := by
    intro l₁ l₂ hp
    rw [min_label_position_merge_eq_sum, min_label_position_merge_eq_sum]
    congr 1
    · exact ((hp.map (fun a => a.total_min_position)).sum_eq)
    · exact ((hp.map (fun a => a.total_weighted_examples)).sum_eq)
  refine ⟨hwec_perm, hwec_group, hmlp_perm, hmlp_group, ?_, ?_⟩
  · intro key gs₁ gs₂ hp
    rw [hwec_group gs₁, hwec_group gs₂, hwec_perm _ _ hp]
  · intro gs₁ gs₂ hp
    rw [hmlp_group gs₁, hmlp_group gs₂, hmlp_perm _ _ hp]

/-- Witness for C9 on the concrete permutation [1, 2] ~ [2, 1] of
weighted-example-count accumulators. -/
theorem merge_accumulators_comm_assoc_witness :
    ([(1 : ℚ), 2]).Perm [2, 1] ∧
    weighted_example_count_merge_accumulators [(1 : ℚ), 2] =
      weighted_example_count_merge_accumulators [2, 1] :=
  ⟨List.Perm.swap 2 1 [], merge_accumulators_comm_assoc.1 [1, 2] [2, 1] (List.Perm.swap 2 1 [])⟩
